import Mathlib

/-!
Verification of the constellate `jwt` module (claims construction, validation,
signing and verification) against its natural-language specification.

The JavaScript sources `src/jwt.js` and `src/util.js` are embedded shallowly:
JSON-like values become the `Json` inductive, JS objects become ordered
association lists, and the external collaborators (elliptic-curve signature
primitives, base64url codec, SHA3 digest, Ajv schema validation for claims and
metadata, the metadata content identifier and the clock) become fields of an
`Env` record, exactly as the specification declares them external.
-/

namespace Constellate

/-- A JSON-like value.  JS objects are ordered association lists of fields
(key order is insertion order, as in JavaScript); JS numbers are restricted to
integers, which is all the module manipulates (timestamps). -/
inductive Json where
  | null : Json
  | bool (b : Bool) : Json
  | num (n : Int) : Json
  | str (s : String) : Json
  | arr (elems : List Json) : Json
  | obj (fields : List (String × Json)) : Json

/-- First binding of key `k` in an association list, as JS property lookup. -/
def lookupKey (k : String) : List (String × Json) → Option Json
  | [] => none
  | (k', v) :: rest => if k = k' then some v else lookupKey k rest

/-- JS `Object.assign({}, obj, { k: v })`: if `k` is already a key its value is
replaced in place (keeping its position); otherwise `(k, v)` is appended. -/
def setKey (fs : List (String × Json)) (k : String) (v : Json) :
    List (String × Json) :=
  if fs.any (fun kv => kv.1 = k) then
    fs.map (fun kv => (kv.1, if kv.1 = k then v else kv.2))
  else
    fs ++ [(k, v)]

/-- Escape of one character inside a JSON string literal, as produced by
`JSON.stringify` for the characters that occur in this module's data. -/
def escChar (c : Char) : String :=
  if c = '"' then "\\\""
  else if c = '\\' then "\\\\"
  else if c = '\n' then "\\n"
  else if c = '\t' then "\\t"
  else if c = '\r' then "\\r"
  else String.singleton c

/-- JSON string literal (quote and escape), as produced by `JSON.stringify`. -/
def quoteStr (s : String) : String :=
  "\"" ++ String.join (s.toList.map escChar) ++ "\""

mutual
/-- Keys pushed by the replacer of the first `JSON.stringify` call inside
`orderStringify` (src/util.js lines 31-38) while traversing a value: every
object key and every array index, in traversal order. -/
def collectInner : Json → List String
  | .obj fs => collectFields fs
  | .arr xs => collectElems 0 xs
  | _ => []

/-- Keys collected from an object's field list: each key followed by the keys
of the value under it. -/
def collectFields : List (String × Json) → List String
  | [] => []
  | (k, v) :: rest => k :: (collectInner v ++ collectFields rest)

/-- Keys collected from an array's elements: each index (as a string) followed
by the keys of the element. -/
def collectElems : Nat → List Json → List String
  | _, [] => []
  | i, x :: rest => toString i :: (collectInner x ++ collectElems (i + 1) rest)
end

/-- All keys pushed by the replacer, root key `""` first. -/
def collectKeys (j : Json) : List String := "" :: collectInner j

/-- The `sizeOf` of a value found in an association list is smaller than the
`sizeOf` of the list; used for termination of the serializer. -/
theorem sizeOf_lookupKey {k : String} {v : Json} :
    ∀ {fs : List (String × Json)}, lookupKey k fs = some v → sizeOf v < sizeOf fs := by
  intro fs
  induction fs with
  | nil => intro h; simp [lookupKey] at h
  | cons kv rest ih =>
    intro h
    match kv with
    | (k', v') =>
      by_cases hk : k = k'
      · simp [lookupKey, hk] at h
        subst h
        simp
        omega
      · simp [lookupKey, hk] at h
        have := ih h
        simp
        omega

mutual
/-- The call `JSON.stringify(value, props)` where `props` is the (deduplicated) property
list: the second `JSON.stringify` call inside `orderStringify`.  Objects emit
exactly the keys of `props` that they possess, in the order of `props`; arrays
emit all elements. -/
def ser (props : List String) (j : Json) : String :=
  match j with
  | .null => "null"
  | .bool b => cond b "true" "false"
  | .num n => toString n
  | .str s => quoteStr s
  | .arr xs => "[" ++ String.intercalate "," (serElems props xs) ++ "]"
  | .obj fs => "\x7b" ++ String.intercalate "," (serMembers props fs props) ++ "\x7d"
termination_by (sizeOf j, 0)

/-- Serialized elements of an array. -/
def serElems (props : List String) (xs : List Json) : List String :=
  match xs with
  | [] => []
  | x :: rest => ser props x :: serElems props rest
termination_by (sizeOf xs, 0)

/-- Serialized members of an object: walk the property list `ks`, emitting
`"key":value` for each key the object possesses. -/
def serMembers (props : List String) (fs : List (String × Json)) (ks : List String) :
    List String :=
  match ks with
  | [] => []
  | k :: rest =>
    match h : lookupKey k fs with
    | some v => (quoteStr k ++ ":" ++ ser props v) :: serMembers props fs rest
    | none => serMembers props fs rest
termination_by (sizeOf fs, ks.length + 1)
decreasing_by
  · exact Prod.Lex.left _ _ (sizeOf_lookupKey h)
  · exact Prod.Lex.right _ (by simp [List.length_cons])
  · exact Prod.Lex.right _ (by simp [List.length_cons])
end

/-- The property-list deduplication performed by `JSON.stringify` when its
replacer argument is an array: keep the first occurrence of each key. -/
def dedupFirst : List String → List String
  | [] => []
  | k :: rest => k :: dedupFirst (rest.filter (fun x => x ≠ k))
termination_by l => l.length
decreasing_by
  have := List.length_filter_le (fun x => decide (x ≠ k)) rest
  simp at *
  omega

/-- The `orderStringify` (src/util.js lines 31-38): collect every key reachable in
`obj` with a replacer, sort the collected keys (JS `Array.prototype.sort`, i.e.
lexicographic string order), and stringify again using the sorted key list as
the property list. -/
def orderStringify (j : Json) : String :=
  ser (dedupFirst (List.insertionSort (fun a b => a ≤ b) (collectKeys j))) j

/-- The key-value object `obj` with the listed keys removed (`withoutKeys`,
src/util.js lines 99-104): remaining fields keep their order.  On a non-object
the function is the identity (the module only applies it to objects). -/
def withoutKeysJ (j : Json) (keys : List String) : Json :=
  match j with
  | .obj fs => .obj (fs.filter (fun kv => !(keys.contains kv.1)))
  | other => other

/-- A claims payload, with the fields the `Create` and `License` schemas
(src/jwt.js lines 155-209) declare.  `aud`, `exp` and `nbf` are optional
(absent on `Create` claims); `none` models an absent (`undefined`) property.
JS truthiness makes the number `0` falsy, which the optional-field checks of
`validateClaims` depend on. -/
structure ClaimsObj where
  iat : Int
  iss : String
  jti : String
  sub : String
  typ : String
  aud : Option (List String)
  exp : Option Int
  nbf : Option Int

/-- A metadata document as `validateClaims` reads it: its `@type` tag and the
role-address lists (a role list that the document does not carry is the empty
list, which authorizes nobody, matching the code's behavior of failing on such
documents). -/
structure MetaDoc where
  type : String
  artist : List String
  composer : List String
  lyricist : List String
  performer : List String
  producer : List String

/-- The external collaborators of the module, as declared by the specification
(SignatureProvider, AddressDerivation, ContentAddressing, SchemaValidator, the
metadata identifier and the clock).  Byte buffers are `List Nat`. -/
structure Env where
  /-- The `sha3_256.buffer` (js-sha3): digest of a string, as bytes. -/
  sha3 : String → List Nat
  /-- The `urlsafeBase64.encode` / `encodeBase64` on a byte buffer. -/
  b64OfBytes : List Nat → String
  /-- base64url of the bytes of a string (used when `encodeBase64` receives an
  object: base64url of the canonical serialization, per the specification). -/
  b64OfString : String → String
  /-- The `decodeBase64`: base64url string back to bytes. -/
  decodeB64 : String → List Nat
  /-- The `now()`: the current integer timestamp.  `validateClaims` reads the clock
  twice (src/jwt.js lines 279 and 285); both reads are modelled as the same
  instant. -/
  now : Int
  /-- The `ed25519.sign(message, secretKey)`. -/
  ed25519Sign : String → List Nat → List Nat
  /-- The `ed25519.verify(message, publicKey, signature)`. -/
  ed25519Verify : String → List Nat → List Nat → Bool
  /-- The `secp256k1.sign(message, secretKey)`. -/
  secpSign : String → List Nat → List Nat
  /-- The `secp256k1.verify(message, publicKey, signature)`. -/
  secpVerify : String → List Nat → List Nat → Bool
  /-- The `secp256k1.compress(x, y)`: affine coordinates to a 33-byte key. -/
  secpCompress : List Nat → List Nat → List Nat
  /-- The `secp256k1.uncompress(publicKey)`: 33-byte key to affine coordinates. -/
  secpUncompress : List Nat → List Nat × List Nat
  /-- The `publicKey2Addr` (lib/party.js): public key bytes to a party address. -/
  publicKey2Addr : List Nat → String
  /-- The `validateSchema(claims, schemaClaims)` (Ajv, external) on a claims
  payload; the schema argument is the JSON schema object. -/
  validateSchemaClaims : ClaimsObj → Json → Bool
  /-- The `validateMeta(meta, schemaMeta)` (lib/meta.js, external). -/
  validateMeta : MetaDoc → Json → Bool
  /-- The `calcMetaId(meta)` (lib/meta.js, external): the metadata document's own
  content identifier. -/
  calcMetaId : MetaDoc → String

/-- The `digestBase64` (src/util.js lines 21-23): base64url encoding of the SHA3-256
digest of a string.  The digest and the codec are the external primitives of
the `Env`. -/
def digestBase64 (E : Env) (s : String) : String :=
  E.b64OfBytes (E.sha3 s)

/-- Modelled from the spec: `calcId(key, obj)` lives in `lib/util.js`, which is
not part of the sources; the specification describes it as the content
identifier computed by canonical serialization plus digest over the object
with the named key excluded, built from `orderStringify` and `digestBase64`
(both in src/util.js). -/
def calcId (E : Env) (key : String) (j : Json) : String :=
  digestBase64 E (orderStringify (withoutKeysJ j [key]))

/-- The `calcClaimsId` (src/jwt.js lines 31-33): content identifier of a claims
object, with `jti` excluded from the hashed content. -/
def calcClaimsId (E : Env) (j : Json) : String :=
  calcId E "jti" j

/-- The `setClaimsId` (src/jwt.js lines 39-41) on a raw claims object:
`Object.assign({}, claims, { jti: calcClaimsId(claims) })`. -/
def setClaimsIdJ (E : Env) (fs : List (String × Json)) : List (String × Json) :=
  setKey fs "jti" (.str (calcClaimsId E (.obj fs)))

/-- The `timestamp` (src/jwt.js lines 43-45) on a raw claims object:
`Object.assign({}, claims, { iat: now() })`. -/
def timestampJ (E : Env) (fs : List (String × Json)) : List (String × Json) :=
  setKey fs "iat" (.num E.now)

/-- The JSON object a `ClaimsObj` denotes; optional fields are present exactly
when they are `some`.  Field order is immaterial to every identifier because
`orderStringify` sorts keys. -/
def ClaimsObj.toJson (c : ClaimsObj) : Json :=
  .obj
    ((match c.aud with
      | some l => [("aud", Json.arr (l.map Json.str))]
      | none => []) ++
     (match c.exp with
      | some e => [("exp", Json.num e)]
      | none => []) ++
     [("iat", Json.num c.iat), ("iss", Json.str c.iss), ("jti", Json.str c.jti)] ++
     (match c.nbf with
      | some n => [("nbf", Json.num n)]
      | none => []) ++
     [("sub", Json.str c.sub), ("typ", Json.str c.typ)])

/-- The `calcClaimsId` applied to a structured claims payload. -/
def calcClaimsIdC (E : Env) (c : ClaimsObj) : String :=
  calcClaimsId E c.toJson

/-- The `setClaimsId` on a structured claims payload: a fresh value with `jti`
replaced by the computed identifier, the other fields untouched. -/
def setClaimsIdC (E : Env) (c : ClaimsObj) : ClaimsObj :=
  { c with jti := calcClaimsIdC E c }

/-- The `jwk` member of a JWT header (the PublicKey schema, src/jwt.js lines
47-95): `y` is present only for P-256 keys. -/
structure Jwk where
  x : String
  y : Option String
  crv : String
  kty : String

/-- The fields of a populated JWT header. -/
structure HeaderData where
  alg : String
  jwk : Jwk
  typ : String

/-- The value a header-builder returns: either the populated header or the
empty object `\x7b\x7d` that `ed25519Header`/`secp256k1Header` return when the
key length check throws (the error is caught and logged, src/jwt.js lines
226-228 and 249-251). -/
inductive HeaderObj where
  | empty : HeaderObj
  | mk (h : HeaderData) : HeaderObj

/-- JSON object denoted by a `jwk` value. -/
def Jwk.toJson (j : Jwk) : Json :=
  .obj
    ([("x", Json.str j.x)] ++
     (match j.y with
      | some ys => [("y", Json.str ys)]
      | none => []) ++
     [("crv", Json.str j.crv), ("kty", Json.str j.kty)])

/-- JSON object denoted by a populated header. -/
def HeaderData.toJson (h : HeaderData) : Json :=
  .obj [("alg", Json.str h.alg), ("jwk", h.jwk.toJson), ("typ", Json.str h.typ)]

/-- The `ed25519Header` (src/jwt.js lines 211-230): a 32-byte key produces the
EdDsa header; any other length throws inside the `try`, the error is logged
and the initial empty object is returned. -/
def ed25519Header (E : Env) (publicKey : List Nat) : HeaderObj :=
  if publicKey.length ≠ 32 then .empty
  else .mk
    { alg := "EdDsa"
      jwk := { x := E.b64OfBytes publicKey, y := none, crv := "Ed25519", kty := "OKP" }
      typ := "JWT" }

/-- The `secp256k1Header` (src/jwt.js lines 232-253): a 33-byte key is decompressed
to affine coordinates and produces the ES256 header; any other length throws
inside the `try`, the error is logged and the initial empty object is
returned. -/
def secp256k1Header (E : Env) (publicKey : List Nat) : HeaderObj :=
  if publicKey.length ≠ 33 then .empty
  else
    .mk
      { alg := "ES256"
        jwk :=
          { x := E.b64OfBytes (E.secpUncompress publicKey).1
            y := some (E.b64OfBytes (E.secpUncompress publicKey).2)
            crv := "P-256"
            kty := "EC" }
        typ := "JWT" }

/-- The pattern `[A-Za-z0-9-_]\x7b43\x7d` that the PublicKey schema imposes on
the `x` and `y` coordinates. -/
def patB64 (s : String) : Bool :=
  s.length == 43 &&
    s.toList.all (fun c => c.isAlpha || c.isDigit || c == '-' || c == '_')

/-- First branch of the PublicKey schema's `oneOf`: an Ed25519/OKP key. -/
def pkOneA (j : Jwk) : Bool :=
  j.crv == "Ed25519" && j.kty == "OKP"

/-- Second branch of the PublicKey schema's `oneOf`: a P-256/EC key carrying a
`y` coordinate of the required shape. -/
def pkOneB (j : Jwk) : Bool :=
  j.crv == "P-256" && j.kty == "EC" &&
    (match j.y with
     | some ys => patB64 ys
     | none => false)

/-- The PublicKey schema (src/jwt.js lines 47-95) evaluated under standard
JSON-Schema semantics (Ajv itself is external): the `x` pattern from the
`allOf` part, and exactly one `oneOf` branch satisfied. -/
def validJwk (j : Jwk) : Bool :=
  patB64 j.x && ((cond (pkOneA j) 1 0) + (cond (pkOneB j) 1 0) == 1)

/-- First branch of the Header schema's `oneOf`: EdDsa over an Ed25519 key. -/
def hdrOneA (h : HeaderData) : Bool :=
  h.alg == "EdDsa" && h.jwk.crv == "Ed25519"

/-- Second branch of the Header schema's `oneOf`: ES256 over a P-256 key. -/
def hdrOneB (h : HeaderData) : Bool :=
  h.alg == "ES256" && h.jwk.crv == "P-256"

/-- The `validateSchema(header, Header)`: the Header schema constant (src/jwt.js
lines 97-145) evaluated under standard JSON-Schema semantics.  The empty
object misses every required property and fails. -/
def validateSchemaHeader : HeaderObj → Bool
  | .empty => false
  | .mk h =>
    (h.alg == "EdDsa" || h.alg == "ES256") && validJwk h.jwk &&
      h.typ == "JWT" && ((cond (hdrOneA h) 1 0) + (cond (hdrOneB h) 1 0) == 1)

/-- The byte string both `signClaims` and `verifyClaims` operate on:
`encodeBase64(header) + "." + encodeBase64(claims)`, each part being base64url
of the canonical serialization. -/
def signingInput (E : Env) (h : HeaderData) (c : ClaimsObj) : String :=
  E.b64OfString (orderStringify h.toJson) ++ "." ++
    E.b64OfString (orderStringify c.toJson)

/-- The `signClaims` (src/jwt.js lines 256-267): sign the encoded header+claims
with the curve selected by `header.alg`; with no matching algorithm (in
particular on the empty header) the initial empty buffer is returned. -/
def signClaims (E : Env) (claims : ClaimsObj) (header : HeaderObj)
    (secretKey : List Nat) : List Nat :=
  match header with
  | .empty => []
  | .mk h =>
    if h.alg == "EdDsa" then E.ed25519Sign (signingInput E h claims) secretKey
    else if h.alg == "ES256" then E.secpSign (signingInput E h claims) secretKey
    else []

/-- Check 2 of `validateClaims`: `['Create', 'License'].includes(claims.typ)`. -/
def validTyp (c : ClaimsObj) : Bool :=
  c.typ == "Create" || c.typ == "License"

/-- Check 4 of `validateClaims` (line 282): when `aud` is present (an array is
always truthy in JS) it must not contain `iss`. -/
def audOk (c : ClaimsObj) : Bool :=
  match c.aud with
  | some l => !(l.any (fun a => a == c.iss))
  | none => true

/-- Check 5 of `validateClaims` (lines 286-296), guarded by the truthiness of
`claims.exp` (a present `0` is falsy and skips all three checks): `exp ≤ iat`
throws, a truthy `nbf` with `exp ≤ nbf` throws, and `exp < now` throws —
`exp == now` is not expired. -/
def expOk (nowT : Int) (c : ClaimsObj) : Bool :=
  match c.exp with
  | none => true
  | some e =>
    if e == 0 then true
    else if e ≤ c.iat then false
    else if (match c.nbf with
             | some n => n != 0 && e ≤ n
             | none => false) then false
    else if e < nowT then false
    else true

/-- Check 6 of `validateClaims` (lines 297-304), guarded by the truthiness of
`claims.nbf`: `nbf ≤ iat` throws and `nbf > now` throws. -/
def nbfOk (nowT : Int) (c : ClaimsObj) : Bool :=
  match c.nbf with
  | none => true
  | some n =>
    if n == 0 then true
    else if n ≤ c.iat then false
    else if n > nowT then false
    else true

/-- Check 9 of `validateClaims` (lines 313-331): the `switch` on
`meta['@type']` selecting the role-address set that must contain `claims.iss`;
the `default` branch throws. -/
def roleOk (c : ClaimsObj) (m : MetaDoc) : Bool :=
  if m.type == "Album" then m.artist.any (fun id => c.iss == id)
  else if m.type == "Composition" then
    (m.composer ++ m.lyricist).any (fun id => c.iss == id)
  else if m.type == "Recording" then
    (m.performer ++ m.producer).any (fun id => c.iss == id)
  else false

/-- The `validateClaims` (src/jwt.js lines 269-339).  The body runs only when
`validateMeta` accepts the metadata document; any check that throws is caught
and yields `false`, which boolean short-circuiting models exactly. -/
def validateClaims (E : Env) (claims : ClaimsObj) (meta : MetaDoc)
    (schemaClaims schemaMeta : Json) : Bool :=
  if E.validateMeta meta schemaMeta then
    E.validateSchemaClaims claims schemaClaims &&
    validTyp claims &&
    !(claims.iat > E.now) &&
    audOk claims &&
    expOk E.now claims &&
    nbfOk E.now claims &&
    claims.jti == calcClaimsIdC E claims &&
    claims.sub == E.calcMetaId meta &&
    roleOk claims meta
  else false

/-- The signer address `verifyClaims` re-derives from the header's key
material: via `decodeBase64` for EdDsa, via decode-and-compress for ES256
(`none` when `alg` matches neither curve or the `y` coordinate is missing). -/
def derivedAddr (E : Env) (h : HeaderData) : Option String :=
  if h.alg == "EdDsa" then some (E.publicKey2Addr (E.decodeB64 h.jwk.x))
  else if h.alg == "ES256" then
    match h.jwk.y with
    | some ys =>
      some (E.publicKey2Addr (E.secpCompress (E.decodeB64 h.jwk.x) (E.decodeB64 ys)))
    | none => none
  else none

/-- The `verifyClaims` (src/jwt.js lines 341-377): header schema check, claims
validation, then per-algorithm re-derivation of the issuer address and
signature verification.  A missing `y` under ES256 models the `decodeBase64`
throw on an undefined coordinate. -/
def verifyClaims (E : Env) (claims : ClaimsObj) (header : HeaderObj)
    (meta : MetaDoc) (schemaClaims schemaMeta : Json) (signature : List Nat) :
    Bool :=
  validateSchemaHeader header &&
  validateClaims E claims meta schemaClaims schemaMeta &&
  (match header with
   | .empty => true
   | .mk h =>
     (if h.alg == "EdDsa" then
        claims.iss == E.publicKey2Addr (E.decodeB64 h.jwk.x) &&
        E.ed25519Verify (signingInput E h claims) (E.decodeB64 h.jwk.x) signature
      else true) &&
     (if h.alg == "ES256" then
        match h.jwk.y with
        | some ys =>
          claims.iss ==
            E.publicKey2Addr (E.secpCompress (E.decodeB64 h.jwk.x) (E.decodeB64 ys)) &&
          E.secpVerify (signingInput E h claims)
            (E.secpCompress (E.decodeB64 h.jwk.x) (E.decodeB64 ys)) signature
        | none => false
      else true))

/-! Concrete instances used to evaluate the embedded functions on explicit
inputs (counterexamples and witnesses).  The external collaborators are given
toy but type-correct realizations; every theorem quantified over `Env` holds
for them in particular. -/

/-- A 43-character base64url-shaped string, the shape of every encoded key
coordinate and digest in the toy environments. -/
def str43 : String := String.mk (List.replicate 43 'a')

/-- A 43-character string of `x`, the toy encoding of the first affine
coordinate. -/
def strX : String := String.mk (List.replicate 43 'x')

/-- A 43-character string of `y`, the toy encoding of the second affine
coordinate. -/
def strY : String := String.mk (List.replicate 43 'y')

/-- A toy 32-byte Ed25519 public key. -/
def pk32 : List Nat := List.replicate 32 0

/-- A toy 33-byte compressed secp256k1 public key. -/
def pk33 : List Nat := List.replicate 33 7

/-- A toy secret key. -/
def sk0 : List Nat := [4]

/-- A toy environment: every validator accepts, every digest is `str43`, the
clock reads 5, the Ed25519 pair behind `pk32` round-trips and derives the
address `"A"`. -/
def EnvA : Env :=
  { sha3 := fun _ => []
    b64OfBytes := fun _ => str43
    b64OfString := fun _ => "e"
    decodeB64 := fun _ => pk32
    now := 5
    ed25519Sign := fun _ _ => [1]
    ed25519Verify := fun _ _ _ => true
    secpSign := fun _ _ => [2]
    secpVerify := fun _ _ _ => true
    secpCompress := fun _ _ => [3]
    secpUncompress := fun _ => ([1], [2])
    publicKey2Addr := fun _ => "A"
    validateSchemaClaims := fun _ _ => true
    validateMeta := fun _ _ => true
    calcMetaId := fun _ => "M" }

/-- A toy environment for the secp256k1 path: `pk33` decompresses to the
coordinates `[1]` and `[2]`, whose encodings decode back and recompress to
`pk33`; digests other than the coordinates hash to `str43`. -/
def EnvS : Env :=
  { sha3 := fun _ => [0]
    b64OfBytes := fun b => if b = [1] then strX else if b = [2] then strY else str43
    b64OfString := fun _ => "e"
    decodeB64 := fun s => if s = strX then [1] else if s = strY then [2] else []
    now := 5
    ed25519Sign := fun _ _ => [1]
    ed25519Verify := fun _ _ _ => true
    secpSign := fun _ _ => [2]
    secpVerify := fun _ _ _ => true
    secpCompress := fun x y => if x = [1] then (if y = [2] then pk33 else []) else []
    secpUncompress := fun _ => ([1], [2])
    publicKey2Addr := fun _ => "A"
    validateSchemaClaims := fun _ _ => true
    validateMeta := fun _ _ => true
    calcMetaId := fun _ => "M" }

/-- The `EnvA` with a metadata validator that rejects everything. -/
def EnvF : Env := { EnvA with validateMeta := fun _ _ => false }

/-- An album document whose single artist address is `"A"`. -/
def metaA : MetaDoc :=
  { type := "Album", artist := ["A"], composer := [], lyricist := []
    performer := [], producer := [] }

/-- A Create claims payload that `EnvA` validates against `metaA`. -/
def claimsA : ClaimsObj :=
  { iat := 1, iss := "A", jti := str43, sub := "M", typ := "Create"
    aud := none, exp := none, nbf := none }

/-- The `claimsA` payload under `EnvS` (same digest `str43`). -/
def claimsS : ClaimsObj := claimsA

/-- A License payload with `exp` equal to the clock of `EnvA`. -/
def claims3a : ClaimsObj :=
  { iat := 1, iss := "A", jti := str43, sub := "M", typ := "License"
    aud := some ["B"], exp := some 5, nbf := none }

/-- A License payload with `exp == iat` (both zero, so `exp` is falsy). -/
def claims3b : ClaimsObj :=
  { iat := 0, iss := "A", jti := str43, sub := "M", typ := "License"
    aud := some ["B"], exp := some 0, nbf := none }

/-- A License payload with `exp == iat == 1`, a truthy coincidence. -/
def claims3w : ClaimsObj :=
  { iat := 1, iss := "A", jti := str43, sub := "M", typ := "License"
    aud := some ["B"], exp := some 1, nbf := none }

/-- A License payload with a present-but-zero `exp` while the clock reads 5:
`exp` lies in the past. -/
def claims9 : ClaimsObj :=
  { iat := 1, iss := "A", jti := str43, sub := "M", typ := "License"
    aud := some ["B"], exp := some 0, nbf := none }

/-- The `claims9` with a present-but-zero `nbf` as well. -/
def claims9n : ClaimsObj := { claims9 with nbf := some 0 }

/-! Theorems. -/

/-- C10: `validateClaims` first runs `validateMeta` on the metadata document
and, whenever that validator rejects, returns `false` for every claims
payload, without any of the nine claims checks influencing the outcome. -/
theorem claim10_meta_gate (E : Env) (c : ClaimsObj) (m : MetaDoc)
    (sc sm : Json) (h : E.validateMeta m sm = false) :
    validateClaims E c m sc sm = false := by
  simp [validateClaims, h]

/-- Witness for C10: the rejecting validator of `EnvF` makes `validateClaims`
return `false` on a payload that `EnvA` (identical but for the metadata
validator) accepts. -/
theorem claim10_meta_gate_witness :
    validateClaims EnvF claimsA metaA .null .null = false ∧
    EnvF.validateMeta metaA .null = false :=
  ⟨claim10_meta_gate EnvF claimsA metaA .null .null rfl, rfl⟩

/-- C9: `validateClaims` tests the presence of `exp` and `nbf` by JS
truthiness, so a present `exp` equal to `0` skips all three `exp` checks and a
present `nbf` equal to `0` skips both `nbf` checks; concretely, `claims9`
(whose `exp` is `0`, strictly earlier than the clock of `EnvA`) validates. -/
theorem claim9_truthiness_skips (nowT : Int) (c : ClaimsObj) :
    (c.exp = some 0 → expOk nowT c = true) ∧
    (c.nbf = some 0 → nbfOk nowT c = true) ∧
    (claims9.exp = some 0 ∧ (0 : Int) < EnvA.now ∧
      validateClaims EnvA claims9 metaA .null .null = true) := by
  refine ⟨fun h => ?_, fun h => ?_, by decide⟩
  · simp [expOk, h]
  · simp [nbfOk, h]

/-- Witness for C9 at concrete payloads: the `exp` checks of `claims9` and
the `nbf` checks of `claims9n` are skipped. -/
theorem claim9_truthiness_skips_witness :
    expOk 5 claims9 = true ∧ nbfOk 5 claims9n = true :=
  ⟨(claim9_truthiness_skips 5 claims9).1 rfl,
   (claim9_truthiness_skips 5 claims9n).2.1 rfl⟩

/-- C3 counterexample: the claim is false on two of its three conjuncts.  The
License `claims3b` has `exp == iat` (both `0`) yet validates, because a zero
`exp` is falsy and every `exp` check is skipped; the License `claims3a` has
`exp` equal to the clock of `EnvA` yet validates, because the code only throws
when `exp < now` (strictly), so `exp == now` is not expired. -/
theorem claim3_counterexample :
    (claims3b.exp = some claims3b.iat ∧
      validateClaims EnvA claims3b metaA .null .null = true) ∧
    (claims3a.exp = some EnvA.now ∧
      validateClaims EnvA claims3a metaA .null .null = true) := by
  decide

/-- C3 amended: a License whose truthy `exp` equals `iat` fails validation
(for every environment and metadata document), and for a truthy `exp` above
`iat` that is not capped by `nbf`, the `exp` checks pass exactly when
`now ≤ exp` — so `exp == now` and `exp == now + 1` both pass the expiry axis
and only `exp < now` is expired. -/
theorem claim3_temporal_boundary (E : Env) (c : ClaimsObj) (m : MetaDoc)
    (sc sm : Json) (e : Int) :
    (c.exp = some e → e ≠ 0 → e = c.iat → validateClaims E c m sc sm = false) ∧
    (c.exp = some e → e ≠ 0 → c.iat < e →
      (∀ n, c.nbf = some n → n = 0 ∨ n < e) →
      (expOk E.now c = true ↔ E.now ≤ e)) := by
  constructor
  · intro hexp hne hiat
    have hle : e ≤ c.iat := le_of_eq hiat
    have hexpOk : expOk E.now c = false := by
      simp [expOk, hexp, hne, hle]
    simp [validateClaims, hexpOk]
  · intro hexp hne hiat hnbf
    have hnbfc : (match c.nbf with
        | some n => n != 0 && decide (e ≤ n)
        | none => false) = false := by
      cases hn : c.nbf with
      | none => rfl
      | some n =>
        rcases hnbf n hn with h0 | hlt
        · simp [h0]
        · simp; omega
    simp [expOk, hexp, hne, hnbfc]
    omega

/-- Witness for C3: `claims3w` has a truthy `exp` equal to `iat` and fails
validation, while the `exp` checks of `claims3a` (with `exp` equal to the
clock) pass. -/
theorem claim3_temporal_boundary_witness :
    validateClaims EnvA claims3w metaA .null .null = false ∧
    expOk EnvA.now claims3a = true :=
  ⟨(claim3_temporal_boundary EnvA claims3w metaA .null .null 1).1 rfl
      (by decide) rfl,
   ((claim3_temporal_boundary EnvA claims3a metaA .null .null 5).2 rfl
      (by decide) (by decide) (fun n h => by simp [claims3a] at h)).2 (by decide)⟩

/-- C4 counterexample: on a wrong-length key neither builder surfaces an
explicit error result — the thrown error is caught and logged and the caller
receives the empty object `\x7b\x7d`, exactly the silently-swallowed
empty/default header the claim rules out. -/
theorem claim4_counterexample :
    ed25519Header EnvA (List.replicate 31 0) = HeaderObj.empty ∧
    secp256k1Header EnvA (List.replicate 31 0) = HeaderObj.empty :=
  ⟨rfl, rfl⟩

/-- C4 amended: for every key whose length is not 32 (Ed25519) or 33
(secp256k1) the builder produces no header fields: it returns the empty
object, which in turn fails the Header schema, so downstream verification
fails closed even though the builder itself reports no error. -/
theorem claim4_header_failure (E : Env) (pk : List Nat) :
    (pk.length ≠ 32 → ed25519Header E pk = HeaderObj.empty) ∧
    (pk.length ≠ 33 → secp256k1Header E pk = HeaderObj.empty) ∧
    validateSchemaHeader HeaderObj.empty = false := by
  refine ⟨fun h => ?_, fun h => ?_, rfl⟩
  · simp [ed25519Header, h]
  · simp [secp256k1Header, h]

/-- Witness for C4 at a concrete 31-byte key. -/
theorem claim4_header_failure_witness :
    ed25519Header EnvS (List.replicate 31 2) = HeaderObj.empty ∧
    secp256k1Header EnvS (List.replicate 31 2) = HeaderObj.empty :=
  ⟨(claim4_header_failure EnvS (List.replicate 31 2)).1 (by decide),
   (claim4_header_failure EnvS (List.replicate 31 2)).2.1 (by decide)⟩

/-- A `some`-style membership scan with `==` is list membership. -/
theorem any_beq_mem (a : String) (l : List String) :
    (l.any fun id => a == id) = true ↔ a ∈ l := by
  induction l with
  | nil => simp
  | cons x xs ih => simp [List.any_cons, ih, beq_iff_eq]

/-- C5: a payload that `validateClaims` accepts reaches and passes the
role-authorization switch, and that switch accepts exactly when the document's
`@type` selects a role-address set containing `claims.iss` — `artist` for
Album, `composer ∪ lyricist` for Composition, `performer ∪ producer` for
Recording — so every other `@type` fails. -/
theorem claim5_role_authorization (E : Env) (c : ClaimsObj) (m : MetaDoc)
    (sc sm : Json) :
    (validateClaims E c m sc sm = true → roleOk c m = true) ∧
    (roleOk c m = true ↔
      ((m.type = "Album" ∧ c.iss ∈ m.artist) ∨
       (m.type = "Composition" ∧ (c.iss ∈ m.composer ∨ c.iss ∈ m.lyricist)) ∨
       (m.type = "Recording" ∧ (c.iss ∈ m.performer ∨ c.iss ∈ m.producer)))) := by
  constructor
  · intro h
    unfold validateClaims at h
    split at h
    · simp only [Bool.and_eq_true] at h
      exact h.2
    · exact absurd h (by simp)
  · have hAC : ("Album" : String) ≠ "Composition" := by decide
    have hAR : ("Album" : String) ≠ "Recording" := by decide
    have hCR : ("Composition" : String) ≠ "Recording" := by decide
    by_cases hA : m.type = "Album"
    · simp [roleOk, hA, any_beq_mem, hAC, hAR]
    · by_cases hC : m.type = "Composition"
      · simp [roleOk, hA, hC, any_beq_mem, hAC, hCR, List.mem_append]
      · by_cases hR : m.type = "Recording"
        · simp [roleOk, hA, hC, hR, any_beq_mem, List.mem_append]
        · simp [roleOk, hA, hC, hR]

/-- Witness for C5: the accepted payload `claimsA` passes the role switch for
the album `metaA`, whose artist list contains its issuer. -/
theorem claim5_role_authorization_witness :
    roleOk claimsA metaA = true :=
  (claim5_role_authorization EnvA claimsA metaA .null .null).1 (by decide)

/-- Looking up `k` after the in-place replacement performed by `setKey` when
`k` is already a key yields the new value. -/
theorem lookupKey_map_replace (k : String) (v : Json) :
    ∀ fs : List (String × Json), fs.any (fun kv => kv.1 = k) = true →
      lookupKey k (fs.map (fun kv => (kv.1, if kv.1 = k then v else kv.2))) =
        some v := by
  intro fs
  induction fs with
  | nil => intro h; simp at h
  | cons kv rest ih =>
    obtain ⟨k0, v0⟩ := kv
    intro h
    by_cases hk : k0 = k
    · subst hk
      simp [lookupKey]
    · have h' : rest.any (fun kv => kv.1 = k) = true := by
        simp only [List.any_cons, Bool.or_eq_true, decide_eq_true_eq] at h
        rcases h with h | h
        · exact absurd h hk
        · simpa using h
      have hne : ¬(k = k0) := fun hEq => hk hEq.symm
      simp only [List.map_cons, lookupKey, if_neg hne]
      exact ih h'

/-- The in-place replacement of the binding of `k` leaves every other key's
binding unchanged. -/
theorem lookupKey_map_replace_other (k k' : String) (v : Json) (h : k' ≠ k) :
    ∀ fs : List (String × Json),
      lookupKey k' (fs.map (fun kv => (kv.1, if kv.1 = k then v else kv.2))) =
        lookupKey k' fs := by
  intro fs
  induction fs with
  | nil => rfl
  | cons kv rest ih =>
    obtain ⟨k0, v0⟩ := kv
    simp only [List.map_cons, lookupKey]
    by_cases hk' : k' = k0
    · have hne : ¬(k0 = k) := fun hEq => h (hk'.trans hEq)
      simp [hk', if_neg hne]
    · simp only [if_neg hk']
      exact ih

/-- Lookup distributes over an appended tail when the key misses the front. -/
theorem lookupKey_append_of_not_front (k : String) (l2 : List (String × Json)) :
    ∀ fs : List (String × Json), fs.any (fun kv => kv.1 = k) = false →
      lookupKey k (fs ++ l2) = lookupKey k l2 := by
  intro fs
  induction fs with
  | nil => intro _; rfl
  | cons kv rest ih =>
    obtain ⟨k0, v0⟩ := kv
    intro h
    simp only [List.any_cons, Bool.or_eq_false_iff, decide_eq_false_iff_not] at h
    have hne : ¬(k = k0) := fun hEq => h.1 hEq.symm
    simp only [List.cons_append, lookupKey, if_neg hne]
    exact ih (by simpa using h.2)

/-- An appended singleton with a foreign key does not change lookups. -/
theorem lookupKey_append_single_other (k k' : String) (v : Json) (h : k' ≠ k) :
    ∀ fs : List (String × Json),
      lookupKey k' (fs ++ [(k, v)]) = lookupKey k' fs := by
  intro fs
  induction fs with
  | nil => simp [lookupKey, h]
  | cons kv rest ih =>
    obtain ⟨k0, v0⟩ := kv
    simp only [List.cons_append, lookupKey]
    by_cases hk' : k' = k0
    · simp [hk']
    · simp only [if_neg hk']
      exact ih

/-- Reading back the key just written by `setKey`. -/
theorem lookupKey_setKey_self (fs : List (String × Json)) (k : String) (v : Json) :
    lookupKey k (setKey fs k v) = some v := by
  unfold setKey
  split
  · exact lookupKey_map_replace k v fs ‹_›
  · rw [lookupKey_append_of_not_front k _ fs
      (by simp only [Bool.not_eq_true] at *; assumption)]
    simp [lookupKey]

/-- The update `setKey` leaves every other key's binding unchanged. -/
theorem lookupKey_setKey_other (fs : List (String × Json)) (k k' : String)
    (v : Json) (h : k' ≠ k) :
    lookupKey k' (setKey fs k v) = lookupKey k' fs := by
  unfold setKey
  split
  · exact lookupKey_map_replace_other k k' v h fs
  · exact lookupKey_append_single_other k k' v h fs

/-- C8: `setClaimsId` and `timestamp` build fresh objects (`Object.assign`
onto `\x7b\x7d`; the argument is never written) that agree with the input on
every key except the one they set — `jti` to the computed content identifier,
`iat` to the clock. -/
theorem claim8_builder_frame (E : Env) (fs : List (String × Json)) (k : String) :
    (k ≠ "jti" → lookupKey k (setClaimsIdJ E fs) = lookupKey k fs) ∧
    lookupKey "jti" (setClaimsIdJ E fs) =
      some (.str (calcClaimsId E (.obj fs))) ∧
    (k ≠ "iat" → lookupKey k (timestampJ E fs) = lookupKey k fs) ∧
    lookupKey "iat" (timestampJ E fs) = some (.num E.now) :=
  ⟨fun h => lookupKey_setKey_other fs "jti" k _ h,
   lookupKey_setKey_self fs "jti" _,
   fun h => lookupKey_setKey_other fs "iat" k _ h,
   lookupKey_setKey_self fs "iat" _⟩

/-- Witness for C8 on a concrete two-field object: the foreign key `"iss"`
keeps its binding under both builders while `jti` and `iat` are set. -/
theorem claim8_builder_frame_witness :
    lookupKey "iss" (setClaimsIdJ EnvA [("iss", .str "A")]) =
      lookupKey "iss" [("iss", Json.str "A")] ∧
    lookupKey "iss" (timestampJ EnvA [("iss", .str "A")]) =
      lookupKey "iss" [("iss", Json.str "A")] :=
  ⟨(claim8_builder_frame EnvA [("iss", .str "A")] "iss").1 (by decide),
   (claim8_builder_frame EnvA [("iss", .str "A")] "iss").2.2.1 (by decide)⟩

/-- Exclusion of a single key, written with `contains` as in `withoutKeysJ`,
is a plain key disequality test. -/
theorem contains_singleton_pred (k : String) :
    (fun kv : String × Json => !(([k] : List String).contains kv.1)) =
      (fun kv : String × Json => !(kv.1 == k)) := by
  funext kv
  simp
  by_cases h : kv.1 = k
  · simp [h]
  · simp [h]

/-- Rebinding the value stored under `k` does not change the object once `k`
is filtered out. -/
theorem filter_map_set (k : String) (v : Json) :
    ∀ fs : List (String × Json),
      (fs.map (fun kv => (kv.1, if kv.1 = k then v else kv.2))).filter
          (fun kv => !(kv.1 == k)) =
        fs.filter (fun kv => !(kv.1 == k)) := by
  intro fs
  induction fs with
  | nil => rfl
  | cons kv rest ih =>
    obtain ⟨k0, v0⟩ := kv
    by_cases hk : k0 = k
    · subst hk
      simp [ih]
    · simp [hk, ih]

/-- The `setKey fs k v` and `fs` agree after `k` is filtered out. -/
theorem filter_setKey (fs : List (String × Json)) (k : String) (v : Json) :
    (setKey fs k v).filter (fun kv => !(kv.1 == k)) =
      fs.filter (fun kv => !(kv.1 == k)) := by
  unfold setKey
  split
  · exact filter_map_set k v fs
  · rw [List.filter_append]
    simp

/-- Replacing `jti` leaves the `jti`-free view of a structured payload
untouched. -/
theorem toJson_set_jti (c : ClaimsObj) (x : String) :
    withoutKeysJ (ClaimsObj.toJson { c with jti := x }) ["jti"] =
      withoutKeysJ c.toJson ["jti"] := by
  simp [ClaimsObj.toJson, withoutKeysJ, List.filter_append, List.filter_cons]

/-- C6: the identifier `setClaimsId` writes into `jti` is the content
identifier of the claims with `jti` excluded, so recomputing the identifier
over the updated object returns the stored value: `calcClaimsId` after
`setClaimsId` equals the assigned `jti`, and the identifier check of
`validateClaims` (`claims.jti == calcClaimsId(claims)`) always succeeds on a
payload produced by `setClaimsId`. -/
theorem claim6_identifier_roundtrip (E : Env) (fs : List (String × Json))
    (c : ClaimsObj) :
    lookupKey "jti" (setClaimsIdJ E fs) =
      some (.str (calcClaimsId E (.obj fs))) ∧
    calcClaimsId E (.obj (setClaimsIdJ E fs)) = calcClaimsId E (.obj fs) ∧
    ((setClaimsIdC E c).jti == calcClaimsIdC E (setClaimsIdC E c)) = true := by
  have hJ : calcClaimsId E (.obj (setClaimsIdJ E fs)) = calcClaimsId E (.obj fs) := by
    unfold calcClaimsId calcId
    simp only [withoutKeysJ, setClaimsIdJ, contains_singleton_pred]
    exact congrArg (fun l => digestBase64 E (orderStringify (Json.obj l)))
      (filter_setKey fs "jti" _)
  have hC : calcClaimsIdC E (setClaimsIdC E c) = calcClaimsIdC E c := by
    unfold setClaimsIdC calcClaimsIdC calcClaimsId calcId
    exact congrArg (fun j => digestBase64 E (orderStringify j))
      (toJson_set_jti c _)
  refine ⟨lookupKey_setKey_self fs "jti" _, hJ, ?_⟩
  rw [hC]
  simp [setClaimsIdC]

/-- A header that passes the Header schema names one of the two supported
algorithms (the `alg` enum). -/
theorem schemaHeader_alg {h : HeaderData}
    (hs : validateSchemaHeader (.mk h) = true) :
    h.alg = "EdDsa" ∨ h.alg = "ES256" := by
  unfold validateSchemaHeader at hs
  simp only [Bool.and_eq_true, Bool.or_eq_true] at hs
  rcases hs.1.1.1 with h1 | h1
  · exact Or.inl (by simpa using h1)
  · exact Or.inr (by simpa using h1)

/-- A schema-passing ES256 header carries a `y` coordinate: the Header
`oneOf` forces `crv = P-256`, whose PublicKey `oneOf` branch requires `y`. -/
theorem schemaHeader_es256_y {h : HeaderData}
    (hs : validateSchemaHeader (.mk h) = true) (ha : h.alg = "ES256") :
    ∃ ys, h.jwk.y = some ys := by
  unfold validateSchemaHeader at hs
  simp only [Bool.and_eq_true] at hs
  have hA : hdrOneA h = false := by
    unfold hdrOneA
    simp [ha]
  have hB : hdrOneB h = true := by
    cases hb : hdrOneB h
    · have := hs.2
      rw [hA, hb] at this
      simp at this
    · rfl
  have hcrv : h.jwk.crv = "P-256" := by
    unfold hdrOneB at hB
    simp only [Bool.and_eq_true] at hB
    simpa using hB.2
  have hjwk := hs.1.1.2
  unfold validJwk at hjwk
  simp only [Bool.and_eq_true] at hjwk
  have hpA : pkOneA h.jwk = false := by
    unfold pkOneA
    simp [hcrv]
  have hpB : pkOneB h.jwk = true := by
    cases hb : pkOneB h.jwk
    · have := hjwk.2
      rw [hpA, hb] at this
      simp at this
    · rfl
  unfold pkOneB at hpB
  simp only [Bool.and_eq_true] at hpB
  cases hy : h.jwk.y with
  | none =>
    have := hpB.2
    rw [hy] at this
    simp at this
  | some ys => exact ⟨ys, rfl⟩

/-- C2: `verifyClaims` returns `true` exactly when the header passes the
Header schema, `validateClaims` succeeds, and the curve selected by
`header.alg` re-derives `claims.iss` from the header's key material and
verifies the signature over the encoded header and claims; and whenever the
re-derived address differs from `claims.iss`, `verifyClaims` returns `false`
regardless of the signature. -/
theorem claim2_verify_characterization (E : Env) (c : ClaimsObj)
    (hd : HeaderObj) (m : MetaDoc) (sc sm : Json) (sig : List Nat) :
    (verifyClaims E c hd m sc sm sig = true ↔
      (validateSchemaHeader hd = true ∧
       validateClaims E c m sc sm = true ∧
       ∃ h, hd = HeaderObj.mk h ∧
         ((h.alg = "EdDsa" ∧
             c.iss = E.publicKey2Addr (E.decodeB64 h.jwk.x) ∧
             E.ed25519Verify (signingInput E h c) (E.decodeB64 h.jwk.x) sig
               = true) ∨
          (h.alg = "ES256" ∧ ∃ ys, h.jwk.y = some ys ∧
             c.iss = E.publicKey2Addr
               (E.secpCompress (E.decodeB64 h.jwk.x) (E.decodeB64 ys)) ∧
             E.secpVerify (signingInput E h c)
               (E.secpCompress (E.decodeB64 h.jwk.x) (E.decodeB64 ys)) sig
               = true)))) ∧
    (∀ h a, hd = HeaderObj.mk h → derivedAddr E h = some a → c.iss ≠ a →
      verifyClaims E c hd m sc sm sig = false) := by
  constructor
  · cases hd with
    | empty => simp [verifyClaims, validateSchemaHeader]
    | mk h =>
      by_cases ha : h.alg = "EdDsa"
      · have hne : h.alg ≠ "ES256" := by rw [ha]; decide
        simp [verifyClaims, ha, hne, Bool.and_eq_true, beq_iff_eq, and_assoc]
      · by_cases hb : h.alg = "ES256"
        · have hne : ¬(h.alg = "EdDsa") := ha
          constructor
          · intro hv
            simp only [verifyClaims, Bool.and_eq_true] at hv
            obtain ⟨⟨hsch, hval⟩, hbr⟩ := hv
            obtain ⟨ys, hy⟩ := schemaHeader_es256_y hsch hb
            refine ⟨hsch, hval, h, rfl, Or.inr ⟨hb, ys, hy, ?_⟩⟩
            simp only [hb, hy] at hbr
            simp [hne, hb] at hbr
            exact hbr
          · rintro ⟨hsch, hval, h', hEq, hbr⟩
            cases hEq
            rcases hbr with ⟨ha', _⟩ | ⟨_, ys, hy, hiss, hvrf⟩
            · exact absurd ha' ha
            · simp [verifyClaims, hsch, hval, hne, hb, hy, hiss, hvrf]
        · constructor
          · intro hv
            simp only [verifyClaims, Bool.and_eq_true] at hv
            rcases schemaHeader_alg hv.1.1 with h1 | h1
            · exact absurd h1 ha
            · exact absurd h1 hb
          · rintro ⟨hsch, _, h', hEq, hbr⟩
            cases hEq
            rcases hbr with ⟨ha', _⟩ | ⟨hb', _⟩
            · exact absurd ha' ha
            · exact absurd hb' hb
  · intro h a hmk hda hne
    subst hmk
    by_cases ha : h.alg = "EdDsa"
    · unfold derivedAddr at hda
      rw [if_pos (by simp [ha])] at hda
      have haddr : E.publicKey2Addr (E.decodeB64 h.jwk.x) = a :=
        Option.some.inj hda
      have hbeq : (c.iss == E.publicKey2Addr (E.decodeB64 h.jwk.x)) = false := by
        rw [haddr]
        exact beq_eq_false_iff_ne.mpr hne
      simp [verifyClaims, ha, hbeq]
    · by_cases hb : h.alg = "ES256"
      · unfold derivedAddr at hda
        rw [if_neg (by simp [ha]), if_pos (by simp [hb])] at hda
        cases hy : h.jwk.y with
        | none => rw [hy] at hda; simp at hda
        | some ys =>
          rw [hy] at hda
          have haddr :
              E.publicKey2Addr
                (E.secpCompress (E.decodeB64 h.jwk.x) (E.decodeB64 ys)) = a :=
            Option.some.inj hda
          have hbeq : (c.iss == E.publicKey2Addr
              (E.secpCompress (E.decodeB64 h.jwk.x) (E.decodeB64 ys))) = false := by
            rw [haddr]
            exact beq_eq_false_iff_ne.mpr hne
          simp [verifyClaims, ha, hb, hy, hbeq]
      · unfold derivedAddr at hda
        rw [if_neg (by simp [ha]), if_neg (by simp [hb])] at hda
        simp at hda

/-- A claims payload whose issuer is the address `"Z"`, which no toy key
derives. -/
def claimsZ : ClaimsObj := { claimsA with iss := "Z" }

/-- The populated EdDsa header of the toy environment. -/
def hdrW : HeaderData :=
  { alg := "EdDsa"
    jwk := { x := str43, y := none, crv := "Ed25519", kty := "OKP" }
    typ := "JWT" }

/-- Witness for C2: under `EnvA` the derived address is `"A"`, so the payload
issued by `"Z"` fails verification even though the toy signature check always
accepts. -/
theorem claim2_verify_characterization_witness :
    verifyClaims EnvA claimsZ (HeaderObj.mk hdrW) metaA .null .null [7] = false :=
  (claim2_verify_characterization EnvA claimsZ (HeaderObj.mk hdrW) metaA
      .null .null [7]).2 hdrW "A" rfl rfl (by decide)

/-- C1: for a claims payload that `validateClaims` accepts and whose issuer is
the address of the signing key, verifying a signature freshly produced by
`signClaims` under the header built from the matching public key succeeds —
on either curve.  The hypotheses on the external collaborators are their §6
contracts: a matching key pair round-trips `sign`/`verify`, the base64url
codec round-trips the key bytes into 43-character base64url strings, and for
secp256k1 compression inverts decompression. -/
theorem claim1_roundtrip_sign_verify (E : Env) (c : ClaimsObj) (m : MetaDoc)
    (sc sm : Json) (pk sk : List Nat)
    (hval : validateClaims E c m sc sm = true) :
    (pk.length = 32 →
      E.publicKey2Addr pk = c.iss →
      (∀ msg, E.ed25519Verify msg pk (E.ed25519Sign msg sk) = true) →
      E.decodeB64 (E.b64OfBytes pk) = pk →
      patB64 (E.b64OfBytes pk) = true →
      verifyClaims E c (ed25519Header E pk) m sc sm
        (signClaims E c (ed25519Header E pk) sk) = true) ∧
    (pk.length = 33 →
      E.publicKey2Addr pk = c.iss →
      (∀ msg, E.secpVerify msg pk (E.secpSign msg sk) = true) →
      E.decodeB64 (E.b64OfBytes (E.secpUncompress pk).1) =
        (E.secpUncompress pk).1 →
      E.decodeB64 (E.b64OfBytes (E.secpUncompress pk).2) =
        (E.secpUncompress pk).2 →
      E.secpCompress (E.secpUncompress pk).1 (E.secpUncompress pk).2 = pk →
      patB64 (E.b64OfBytes (E.secpUncompress pk).1) = true →
      patB64 (E.b64OfBytes (E.secpUncompress pk).2) = true →
      verifyClaims E c (secp256k1Header E pk) m sc sm
        (signClaims E c (secp256k1Header E pk) sk) = true) := by
  constructor
  · intro hlen haddr hrt hdec hfmt
    have hh : ed25519Header E pk = HeaderObj.mk
        { alg := "EdDsa"
          jwk := { x := E.b64OfBytes pk, y := none, crv := "Ed25519", kty := "OKP" }
          typ := "JWT" } := by
      unfold ed25519Header
      rw [if_neg (by omega)]
    rw [hh]
    simp [verifyClaims, signClaims, validateSchemaHeader, validJwk, pkOneA,
      pkOneB, hdrOneA, hdrOneB, hfmt, hval, hdec, haddr, hrt]
  · intro hlen haddr hrt hdec1 hdec2 hcomp hfmt1 hfmt2
    have hh : secp256k1Header E pk = HeaderObj.mk
        { alg := "ES256"
          jwk :=
            { x := E.b64OfBytes (E.secpUncompress pk).1
              y := some (E.b64OfBytes (E.secpUncompress pk).2)
              crv := "P-256"
              kty := "EC" }
          typ := "JWT" } := by
      unfold secp256k1Header
      rw [if_neg (by omega)]
    rw [hh]
    simp [verifyClaims, signClaims, validateSchemaHeader, validJwk, pkOneA,
      pkOneB, hdrOneA, hdrOneB, hfmt1, hfmt2, hval, hdec1, hdec2, hcomp,
      haddr, hrt]

/-- Witness for C1 on both curves: the toy environments satisfy every
collaborator contract at `pk32`/`pk33`, and the freshly signed payloads
verify. -/
theorem claim1_roundtrip_sign_verify_witness :
    verifyClaims EnvA claimsA (ed25519Header EnvA pk32) metaA .null .null
      (signClaims EnvA claimsA (ed25519Header EnvA pk32) sk0) = true ∧
    verifyClaims EnvS claimsS (secp256k1Header EnvS pk33) metaA .null .null
      (signClaims EnvS claimsS (secp256k1Header EnvS pk33) sk0) = true :=
  ⟨(claim1_roundtrip_sign_verify EnvA claimsA metaA .null .null pk32 sk0
      (by decide)).1 (by decide) rfl (fun msg => rfl) rfl (by decide),
   (claim1_roundtrip_sign_verify EnvS claimsS metaA .null .null pk33 sk0
      (by decide)).2 (by decide) rfl (fun msg => rfl) (by decide) (by decide)
      (by decide) (by decide) (by decide)⟩

/-- Swapping the two leading blocks of a concatenation is a permutation. -/
theorem perm_block_swap (P Q R : List String) :
    (P ++ (Q ++ R)).Perm (Q ++ (P ++ R)) := by
  rw [← List.append_assoc, ← List.append_assoc]
  exact List.perm_append_comm.append_right R

/-- Permuting an object's fields permutes the multiset of keys the
`orderStringify` replacer collects. -/
theorem collectFields_perm {fs₁ fs₂ : List (String × Json)} (p : fs₁.Perm fs₂) :
    (collectFields fs₁).Perm (collectFields fs₂) := by
  induction p with
  | nil => exact List.Perm.refl _
  | cons kv _ ih =>
    obtain ⟨k, v⟩ := kv
    simp only [collectFields]
    exact (ih.append_left (collectInner v)).cons k
  | swap x y l =>
    obtain ⟨kx, vx⟩ := x
    obtain ⟨ky, vy⟩ := y
    simp only [collectFields]
    have h := perm_block_swap (ky :: collectInner vy) (kx :: collectInner vx)
      (collectFields l)
    simpa using h
  | trans _ _ ih₁ ih₂ => exact ih₁.trans ih₂

/-- On objects with no duplicate keys, lookups only depend on the key-value
mapping, not on field order. -/
theorem lookupKey_perm :
    ∀ {fs₁ fs₂ : List (String × Json)}, fs₁.Perm fs₂ →
      (fs₁.map Prod.fst).Nodup → ∀ k, lookupKey k fs₁ = lookupKey k fs₂ := by
  intro fs₁ fs₂ p
  induction p with
  | nil => intro _ _; rfl
  | cons kv _ ih =>
    obtain ⟨k0, v0⟩ := kv
    intro nd k
    simp only [List.map_cons, List.nodup_cons] at nd
    by_cases hk : k = k0
    · simp [lookupKey, hk]
    · simp only [lookupKey, if_neg hk]
      exact ih nd.2 k
  | swap x y l =>
    obtain ⟨kx, vx⟩ := x
    obtain ⟨ky, vy⟩ := y
    intro nd k
    simp only [List.map_cons, List.nodup_cons, List.mem_cons] at nd
    have hne : ky ≠ kx := fun hEq => nd.1 (Or.inl hEq)
    by_cases h1 : k = ky
    · have h2 : ¬(k = kx) := fun hEq => hne (h1 ▸ hEq ▸ rfl)
      simp [lookupKey, h1, h2, hne]
    · by_cases h2 : k = kx
      · have h1' : ¬(kx = ky) := fun hEq => hne hEq.symm
        simp [lookupKey, h1, h2, h1']
      · simp [lookupKey, h1, h2]
  | trans p₁ _ ih₁ ih₂ =>
    intro nd k
    have nd₂ := (p₁.map Prod.fst).nodup_iff.mp nd
    exact (ih₁ nd k).trans (ih₂ nd₂ k)

/-- Two objects with the same lookups serialize identically under the same
property list. -/
theorem serMembers_congr (props : List String) {fs₁ fs₂ : List (String × Json)}
    (hl : ∀ k, lookupKey k fs₁ = lookupKey k fs₂) :
    ∀ ks, serMembers props fs₁ ks = serMembers props fs₂ ks := by
  intro ks
  induction ks with
  | nil => simp [serMembers]
  | cons k rest ih =>
    simp only [serMembers]
    rw [hl k]
    cases h : lookupKey k fs₂ with
    | none => simp [ih]
    | some v => simp [ih]

/-- Permuting the fields of a duplicate-free object leaves `orderStringify`
unchanged: the sorted property lists coincide and the property-driven member
serialization only performs lookups. -/
theorem orderStringify_perm {fs₁ fs₂ : List (String × Json)} (p : fs₁.Perm fs₂)
    (nd : (fs₁.map Prod.fst).Nodup) :
    orderStringify (Json.obj fs₁) = orderStringify (Json.obj fs₂) := by
  have hck : (collectKeys (Json.obj fs₁)).Perm (collectKeys (Json.obj fs₂)) := by
    unfold collectKeys
    simp only [collectInner]
    exact (collectFields_perm p).cons ""
  have hsort :
      List.insertionSort (fun a b => a ≤ b) (collectKeys (Json.obj fs₁)) =
        List.insertionSort (fun a b => a ≤ b) (collectKeys (Json.obj fs₂)) := by
    refine List.eq_of_perm_of_sorted ?_ (List.sorted_insertionSort _ _)
      (List.sorted_insertionSort _ _)
    exact ((List.perm_insertionSort _ _).trans hck).trans
      (List.perm_insertionSort _ _).symm
  unfold orderStringify
  rw [hsort]
  simp only [ser]
  rw [serMembers_congr _ (lookupKey_perm p nd)]

/-- C7: `orderStringify` is a function of the key-value mapping alone — two
objects with the same (duplicate-free) fields in different insertion orders
serialize to the same string — and therefore `digestBase64` of the canonical
serialization, the derived content identifier, is also insertion-order
independent; repeated calls trivially agree since the embedding is pure. -/
theorem claim7_canonical_determinism (E : Env) {fs₁ fs₂ : List (String × Json)}
    (p : fs₁.Perm fs₂) (nd : (fs₁.map Prod.fst).Nodup) :
    orderStringify (Json.obj fs₁) = orderStringify (Json.obj fs₂) ∧
    digestBase64 E (orderStringify (Json.obj fs₁)) =
      digestBase64 E (orderStringify (Json.obj fs₂)) := by
  have h := orderStringify_perm p nd
  exact ⟨h, congrArg (digestBase64 E) h⟩

/-- Witness for C7: a concrete two-field object and its key-swapped variant
have equal canonical serializations and equal digests. -/
theorem claim7_canonical_determinism_witness :
    orderStringify (Json.obj [("a", Json.str "1"), ("b", Json.num 2)]) =
      orderStringify (Json.obj [("b", Json.num 2), ("a", Json.str "1")]) ∧
    digestBase64 EnvA
        (orderStringify (Json.obj [("a", Json.str "1"), ("b", Json.num 2)])) =
      digestBase64 EnvA
        (orderStringify (Json.obj [("b", Json.num 2), ("a", Json.str "1")])) :=
  claim7_canonical_determinism EnvA
    (List.Perm.swap ("b", Json.num 2) ("a", Json.str "1") []) (by decide)

end Constellate
